import Mathlib

/-
Verification of the billiard-hall scoreboard table state machine
(server.js). The persistent store is modelled as a map from table
numbers to table rows plus an append-only list of game records; each
HTTP handler becomes a function from the store to a response paired
with the updated store. JS falsy checks on request fields are modelled
explicitly (a missing/zero tableNum and the empty nickname are the
falsy inputs the code rejects); a handler that dereferences the first
row of an empty query result throws and is caught by the surrounding
try/catch, which we model as an internalError response that leaves the
store untouched.
-/

namespace Billiard

inductive Status where
  | available
  | waiting
  | occupied
  deriving DecidableEq

inductive Role where
  | player1
  | player2
  deriving DecidableEq

/-- A row of the `tables` relation, with nullable columns as `Option`.
`currentTurn` holds the role literal the code stores (the strings
written there are only ever player1/player2, or NULL). Timestamps are
abstracted as integers. -/
structure Table where
  status : Status
  player1 : Option String
  player2 : Option String
  score1 : Int
  score2 : Int
  target1 : Int
  target2 : Int
  color1 : Option String
  color2 : Option String
  currentTurn : Option Role
  inning : Int
  startTime : Option Int
  deriving DecidableEq

/-- The all-null/zero available row both endGame and cancelRoom write. -/
def emptyTable : Table :=
  { status := Status.available, player1 := none, player2 := none,
    score1 := 0, score2 := 0, target1 := 0, target2 := 0,
    color1 := none, color2 := none, currentTurn := none,
    inning := 0, startTime := none }

/-- A row of the append-only `games` relation. `winner` is a nickname
(the code inserts table.player1 or table.player2, which may be NULL). -/
structure GameRecord where
  tableNum : Nat
  player1 : Option String
  player2 : Option String
  score1 : Int
  score2 : Int
  winner : Option String
  startTime : Option Int
  deriving DecidableEq

/-- The persistent store: the `tables` relation keyed by table number,
and the `games` log. -/
@[ext] structure DB where
  tables : Nat → Option Table
  games : List GameRecord

/-- UPDATE tables SET ... WHERE table_num = n, row already known to exist. -/
def DB.setTable (db : DB) (n : Nat) (t : Table) : DB :=
  { db with tables := fun m => if m = n then some t else db.tables m }

inductive Err where
  | invalidInput
  | notFound
  | invalidState
  | internalError
  deriving DecidableEq

inductive TurnOutcome where
  | gameOver (winner : Role)
  | passed
  deriving DecidableEq

/-- POST /api/createRoom: rejects falsy tableNum/nickname, 404 when the
table row is absent, 400 when its status is not available, otherwise
sets status=waiting, player1, target1. -/
def createRoom (tableNum : Nat) (nickname : String) (target : Int)
    (db : DB) : Except Err Unit × DB :=
  if tableNum = 0 ∨ nickname = "" then (Except.error Err.invalidInput, db)
  else
    match db.tables tableNum with
    | none => (Except.error Err.notFound, db)
    | some t =>
      if t.status ≠ Status.available then (Except.error Err.invalidState, db)
      else (Except.ok (), db.setTable tableNum
        { t with status := Status.waiting, player1 := some nickname,
                 target1 := target })

/-- POST /api/joinRoom: one 400 covers both a missing row and a status
other than waiting; otherwise sets player2 only. -/
def joinRoom (tableNum : Nat) (nickname : String) (db : DB) :
    Except Err Unit × DB :=
  match db.tables tableNum with
  | none => (Except.error Err.invalidState, db)
  | some t =>
    if t.status = Status.waiting then
      (Except.ok (), db.setTable tableNum { t with player2 := some nickname })
    else (Except.error Err.invalidState, db)

/-- POST /api/approveJoin: an unconditional UPDATE of target2; no
status or existence check (an UPDATE matching no row still succeeds). -/
def approveJoin (tableNum : Nat) (target : Int) (db : DB) :
    Except Err Unit × DB :=
  match db.tables tableNum with
  | none => (Except.ok (), db)
  | some t => (Except.ok (), db.setTable tableNum { t with target2 := target })

/-- POST /api/setColors: starter is player2 exactly when color2 is
"white"; unconditional UPDATE to occupied with colors, starter turn,
inning 1 and start_time NOW(). -/
def setColors (tableNum : Nat) (color1 color2 : String) (now : Int)
    (db : DB) : Except Err Role × DB :=
  let starter := if color2 = "white" then Role.player2 else Role.player1
  match db.tables tableNum with
  | none => (Except.ok starter, db)
  | some t =>
    (Except.ok starter, db.setTable tableNum
      { t with status := Status.occupied, color1 := some color1,
               color2 := some color2, currentTurn := some starter,
               inning := 1, startTime := some now })

/-- POST /api/updateScore: reads current_turn of the first result row
(throws into the catch block when the row is absent), then writes the
score into score1 when current_turn is the literal player1 and into
score2 for every other value, NULL included. -/
def updateScore (tableNum : Nat) (score : Int) (db : DB) :
    Except Err Unit × DB :=
  match db.tables tableNum with
  | none => (Except.error Err.internalError, db)
  | some t =>
    if t.currentTurn = some Role.player1 then
      (Except.ok (), db.setTable tableNum { t with score1 := score })
    else
      (Except.ok (), db.setTable tableNum { t with score2 := score })

/-- POST /api/nextTurn: win check first (player1 before player2), each
returning with no UPDATE; otherwise flip the turn and increment the
inning exactly when the new turn is player1. -/
def nextTurn (tableNum : Nat) (db : DB) : Except Err TurnOutcome × DB :=
  match db.tables tableNum with
  | none => (Except.error Err.internalError, db)
  | some t =>
    if t.score1 ≥ t.target1 then
      (Except.ok (TurnOutcome.gameOver Role.player1), db)
    else if t.score2 ≥ t.target2 then
      (Except.ok (TurnOutcome.gameOver Role.player2), db)
    else
      let nt := if t.currentTurn = some Role.player1 then Role.player2
                else Role.player1
      let ni := if nt = Role.player1 then t.inning + 1 else t.inning
      (Except.ok TurnOutcome.passed, db.setTable tableNum
        { t with currentTurn := some nt, inning := ni })

/-- POST /api/endGame: reads the row (missing row throws into the
catch), derives winner as score1 >= target1 ? player1 : player2,
INSERTs one game record, then resets the row to the all-null state. -/
def endGame (tableNum : Nat) (db : DB) : Except Err Unit × DB :=
  match db.tables tableNum with
  | none => (Except.error Err.internalError, db)
  | some t =>
    let winner := if t.score1 ≥ t.target1 then t.player1 else t.player2
    let g : GameRecord :=
      { tableNum := tableNum, player1 := t.player1, player2 := t.player2,
        score1 := t.score1, score2 := t.score2, winner := winner,
        startTime := t.startTime }
    let db1 : DB := { db with games := db.games ++ [g] }
    (Except.ok (), db1.setTable tableNum emptyTable)

/-- POST /api/cancelRoom: unconditional UPDATE of the row to the
all-null state; no validation at all. -/
def cancelRoom (tableNum : Nat) (db : DB) : Except Err Unit × DB :=
  match db.tables tableNum with
  | none => (Except.ok (), db)
  | some _ => (Except.ok (), db.setTable tableNum emptyTable)

/-- The operations of the table state machine, for statements about
arbitrary sequences of calls. -/
inductive Op where
  | createRoom (tableNum : Nat) (nickname : String) (target : Int)
  | joinRoom (tableNum : Nat) (nickname : String)
  | approveJoin (tableNum : Nat) (target : Int)
  | setColors (tableNum : Nat) (color1 color2 : String) (now : Int)
  | updateScore (tableNum : Nat) (score : Int)
  | nextTurn (tableNum : Nat)
  | endGame (tableNum : Nat)
  | cancelRoom (tableNum : Nat)
  deriving DecidableEq

def applyOp (op : Op) (db : DB) : DB :=
  match op with
  | Op.createRoom n nick tgt => (createRoom n nick tgt db).2
  | Op.joinRoom n nick => (joinRoom n nick db).2
  | Op.approveJoin n tgt => (approveJoin n tgt db).2
  | Op.setColors n c1 c2 now => (setColors n c1 c2 now db).2
  | Op.updateScore n s => (updateScore n s db).2
  | Op.nextTurn n => (nextTurn n db).2
  | Op.endGame n => (endGame n db).2
  | Op.cancelRoom n => (cancelRoom n db).2

def applyOps (ops : List Op) (db : DB) : DB :=
  ops.foldl (fun d o => applyOp o d) db

def Role.other : Role → Role
  | Role.player1 => Role.player2
  | Role.player2 => Role.player1

/-- Line 446: `current_turn === 'player1' ? 'player2' : 'player1'`. -/
def flipTurn (t : Table) : Role :=
  if t.currentTurn = some Role.player1 then Role.player2 else Role.player1

/-- The row nextTurn writes in its no-win branch (lines 446-451). -/
def stepTable (t : Table) : Table :=
  { t with currentTurn := some (flipTurn t),
           inning := if flipTurn t = Role.player1 then t.inning + 1
                     else t.inning }

/-- The fields the spec requires to be null/zero on an available table. -/
def nullZero (t : Table) : Prop :=
  t.player1 = none ∧ t.player2 = none ∧ t.score1 = 0 ∧ t.score2 = 0 ∧
  t.target1 = 0 ∧ t.target2 = 0 ∧ t.color1 = none ∧ t.color2 = none ∧
  t.currentTurn = none ∧ t.inning = 0 ∧ t.startTime = none

instance nullZeroDecidable (t : Table) : Decidable (nullZero t) := by
  unfold nullZero
  infer_instance

/-- The spec's claimed invariant: every available row is all-null/zero. -/
def Inv (db : DB) : Prop :=
  ∀ n t, db.tables n = some t → t.status = Status.available → nullZero t

/-- The two operations that perform no status check before writing. -/
def Op.isApproveOrUpdate : Op → Bool
  | Op.approveJoin _ _ => true
  | Op.updateScore _ _ => true
  | _ => false

/-! Concrete fixtures used by witnesses and counterexamples. -/

def kim : String := "Kim"

def lee : String := "Lee"

def red : String := "red"

def yellow : String := "yellow"

def whiteBall : String := "white"

/-- A store with a single, freshly provisioned table 1. -/
def dbA : DB := { tables := fun n => if n = 1 then some emptyTable else none, games := [] }

/-- A mid-game occupied row: neither player has reached their target. -/
def tGame : Table :=
  { status := Status.occupied, player1 := some kim, player2 := some lee,
    score1 := 3, score2 := 4, target1 := 10, target2 := 15,
    color1 := some red, color2 := some yellow,
    currentTurn := some Role.player1, inning := 2, startTime := some 100 }

def dbGame : DB := { tables := fun n => if n = 1 then some tGame else none, games := [] }

/-- A waiting row with both players present but no turn assigned yet
(setColors has not run: currentTurn is NULL). -/
def tWaitBoth : Table :=
  { emptyTable with status := Status.waiting, player1 := some kim,
                    player2 := some lee, target1 := 10, target2 := 15 }

def dbWait : DB := { tables := fun n => if n = 1 then some tWaitBoth else none, games := [] }

/-- A full happy-path session on table 1, avoiding the two unguarded
write operations. -/
def opsW : List Op :=
  [Op.createRoom 1 kim 25, Op.joinRoom 1 lee,
   Op.setColors 1 red whiteBall 100, Op.nextTurn 1,
   Op.endGame 1, Op.cancelRoom 1]

/-! ## Claim theorems -/

/-- C10: when the queried table number has no row, updateScore, nextTurn
and endGame all fail with the generic internal error (not notFound), and
the store — table rows and games log alike — is left unchanged. -/
theorem missingTable_internalError (db : DB) (n : Nat) (s : Int)
    (h : db.tables n = none) :
    updateScore n s db = (Except.error Err.internalError, db) ∧
    nextTurn n db = (Except.error Err.internalError, db) ∧
    endGame n db = (Except.error Err.internalError, db) ∧
    Err.internalError ≠ Err.notFound := by
  refine ⟨?_, ?_, ?_, by decide⟩ <;> simp [updateScore, nextTurn, endGame, h]

theorem missingTable_internalError_witness :
    dbGame.tables 2 = none ∧
    (updateScore 2 7 dbGame = (Except.error Err.internalError, dbGame) ∧
     nextTurn 2 dbGame = (Except.error Err.internalError, dbGame) ∧
     endGame 2 dbGame = (Except.error Err.internalError, dbGame) ∧
     Err.internalError ≠ Err.notFound) :=
  ⟨rfl, missingTable_internalError dbGame 2 7 rfl⟩

/-- C9: updateScore writes the submitted score into score2 whenever the
row's currentTurn is anything but the literal player1 — NULL included —
and into score1 exactly when currentTurn is player1. -/
theorem updateScore_routesByTurn (db : DB) (n : Nat) (t : Table) (s : Int)
    (h : db.tables n = some t) :
    (t.currentTurn ≠ some Role.player1 →
      (updateScore n s db).2.tables n = some { t with score2 := s }) ∧
    (t.currentTurn = some Role.player1 →
      (updateScore n s db).2.tables n = some { t with score1 := s }) := by
  constructor
  · intro hne
    simp [updateScore, h, hne, DB.setTable]
  · intro heq
    simp [updateScore, h, heq, DB.setTable]

theorem updateScore_routesByTurn_witness :
    dbWait.tables 1 = some tWaitBoth ∧
    tWaitBoth.currentTurn = none ∧
    (updateScore 1 7 dbWait).2.tables 1 = some { tWaitBoth with score2 := 7 } :=
  ⟨rfl, rfl, (updateScore_routesByTurn dbWait 1 tWaitBoth 7 rfl).1 (by decide)⟩

/-- C1: the winner field of the game record endGame appends is the
player1 nickname when score1 has reached target1 and the player2
nickname in every other case; score2 is never compared with target2, so
whenever score1 < target1 the record names player2 the winner. -/
theorem endGame_winner_asymmetric (db : DB) (n : Nat) (t : Table)
    (h : db.tables n = some t) :
    ∃ g : GameRecord, (endGame n db).2.games = db.games ++ [g] ∧
      g.winner = (if t.score1 ≥ t.target1 then t.player1 else t.player2) ∧
      (t.score1 < t.target1 → g.winner = t.player2) := by
  refine ⟨{ tableNum := n, player1 := t.player1, player2 := t.player2,
            score1 := t.score1, score2 := t.score2,
            winner := if t.score1 ≥ t.target1 then t.player1 else t.player2,
            startTime := t.startTime }, ?_, rfl, ?_⟩
  · simp [endGame, h, DB.setTable]
  · intro hlt
    simp only
    rw [if_neg (by omega)]

theorem endGame_winner_asymmetric_witness :
    dbGame.tables 1 = some tGame ∧
    tGame.score1 < tGame.target1 ∧ tGame.score2 < tGame.target2 ∧
    ∃ g : GameRecord, (endGame 1 dbGame).2.games = dbGame.games ++ [g] ∧
      g.winner = (if tGame.score1 ≥ tGame.target1 then tGame.player1 else tGame.player2) ∧
      (tGame.score1 < tGame.target1 → g.winner = tGame.player2) :=
  ⟨rfl, by decide, by decide, endGame_winner_asymmetric dbGame 1 tGame rfl⟩

/-- C2: nextTurn evaluates the win condition before any mutation and in
a fixed order: score1 ≥ target1 reports gameOver with winner player1 and
returns the store unchanged; otherwise score2 ≥ target2 reports gameOver
with winner player2, store unchanged; when both thresholds hold, player1
is declared winner. -/
theorem nextTurn_winCheck_first (db : DB) (n : Nat) (t : Table)
    (h : db.tables n = some t) :
    (t.score1 ≥ t.target1 →
      nextTurn n db = (Except.ok (TurnOutcome.gameOver Role.player1), db)) ∧
    (t.score1 < t.target1 → t.score2 ≥ t.target2 →
      nextTurn n db = (Except.ok (TurnOutcome.gameOver Role.player2), db)) ∧
    (t.score1 ≥ t.target1 → t.score2 ≥ t.target2 →
      nextTurn n db = (Except.ok (TurnOutcome.gameOver Role.player1), db)) := by
  refine ⟨?_, ?_, ?_⟩
  · intro hw
    simp only [nextTurn, h]
    rw [if_pos hw]
  · intro hlt hw2
    simp only [nextTurn, h]
    rw [if_neg (by omega), if_pos hw2]
  · intro hw _
    simp only [nextTurn, h]
    rw [if_pos hw]

theorem nextTurn_winCheck_first_witness :
    dbGame.tables 1 = some tGame ∧
    tGame.score1 < tGame.target1 ∧ (4 : Int) ≥ (4 : Int) ∧
    nextTurn 1 { dbGame with tables := fun n => if n = 1 then some { tGame with target2 := 4 } else none } =
      (Except.ok (TurnOutcome.gameOver Role.player2),
       { dbGame with tables := fun n => if n = 1 then some { tGame with target2 := 4 } else none }) :=
  ⟨rfl, by decide, by decide,
    (nextTurn_winCheck_first _ 1 { tGame with target2 := 4 } rfl).2.1
      (by decide) (by decide)⟩

lemma Role.other_other (r : Role) : r.other.other = r := by
  cases r <;> rfl

/-- nextTurn in the no-win branch writes exactly the stepTable row. -/
lemma nextTurn_noWin_eq (db : DB) (n : Nat) (t : Table)
    (h : db.tables n = some t)
    (h1 : t.score1 < t.target1) (h2 : t.score2 < t.target2) :
    nextTurn n db = (Except.ok TurnOutcome.passed, db.setTable n (stepTable t)) := by
  simp only [nextTurn, h]
  rw [if_neg (by omega), if_neg (by omega)]
  rfl

lemma stepTable_currentTurn (t : Table) (r : Role)
    (hr : t.currentTurn = some r) :
    (stepTable t).currentTurn = some r.other := by
  cases r <;> simp [stepTable, flipTurn, hr, Role.other]

lemma stepTable_inning (t : Table) (r : Role) (hr : t.currentTurn = some r) :
    (stepTable t).inning =
      (if r.other = Role.player1 then t.inning + 1 else t.inning) := by
  cases r <;> simp [stepTable, flipTurn, hr, Role.other]

/-- C3: with neither win condition met, nextTurn flips currentTurn to
the other role and increments inning exactly when the new turn is
player1; two consecutive such calls restore currentTurn and add exactly
1 to inning. -/
theorem nextTurn_alternation (db : DB) (n : Nat) (t : Table) (r : Role)
    (h : db.tables n = some t) (hr : t.currentTurn = some r)
    (h1 : t.score1 < t.target1) (h2 : t.score2 < t.target2) :
    ∃ t1 t2,
      (nextTurn n db).2.tables n = some t1 ∧
      t1.currentTurn = some r.other ∧
      t1.inning = (if r.other = Role.player1 then t.inning + 1 else t.inning) ∧
      (nextTurn n (nextTurn n db).2).2.tables n = some t2 ∧
      t2.currentTurn = some r ∧
      t2.inning = t.inning + 1 := by
  have e1 := nextTurn_noWin_eq db n t h h1 h2
  have hdb1 : (nextTurn n db).2.tables n = some (stepTable t) := by
    rw [e1]
    simp [DB.setTable]
  have e2 := nextTurn_noWin_eq (nextTurn n db).2 n (stepTable t) hdb1 h1 h2
  have hdb2 : (nextTurn n (nextTurn n db).2).2.tables n
      = some (stepTable (stepTable t)) := by
    rw [e2]
    simp [DB.setTable]
  have hc1 := stepTable_currentTurn t r hr
  have hc2 := stepTable_currentTurn (stepTable t) r.other hc1
  refine ⟨stepTable t, stepTable (stepTable t), hdb1,
          hc1, stepTable_inning t r hr, hdb2, ?_, ?_⟩
  · rw [hc2, Role.other_other]
  · rw [stepTable_inning (stepTable t) r.other hc1, stepTable_inning t r hr]
    cases r <;> simp [Role.other]

theorem nextTurn_alternation_witness :
    dbGame.tables 1 = some tGame ∧
    tGame.currentTurn = some Role.player1 ∧
    tGame.score1 < tGame.target1 ∧ tGame.score2 < tGame.target2 ∧
    ∃ t1 t2,
      (nextTurn 1 dbGame).2.tables 1 = some t1 ∧
      t1.currentTurn = some (Role.other Role.player1) ∧
      t1.inning = (if Role.other Role.player1 = Role.player1
                   then tGame.inning + 1 else tGame.inning) ∧
      (nextTurn 1 (nextTurn 1 dbGame).2).2.tables 1 = some t2 ∧
      t2.currentTurn = some Role.player1 ∧
      t2.inning = tGame.inning + 1 :=
  ⟨rfl, rfl, by decide, by decide,
   nextTurn_alternation dbGame 1 tGame Role.player1 rfl rfl
     (by decide) (by decide)⟩

/-- C5: on a waiting table, setColors moves the row to occupied, stores
both colors, sets inning to exactly 1 and startTime to the current time,
and picks currentTurn = player2 exactly when color2 is "white", player1
for every other color2. -/
theorem setColors_starts_game (db : DB) (n : Nat) (t : Table)
    (c1 c2 : String) (now : Int)
    (h : db.tables n = some t) (_hw : t.status = Status.waiting) :
    ∃ u, (setColors n c1 c2 now db).2.tables n = some u ∧
      u.status = Status.occupied ∧ u.color1 = some c1 ∧ u.color2 = some c2 ∧
      u.inning = 1 ∧ u.startTime = some now ∧
      (u.currentTurn = some Role.player2 ↔ c2 = "white") ∧
      (c2 ≠ "white" → u.currentTurn = some Role.player1) := by
  refine ⟨{ t with
              status := Status.occupied
              color1 := some c1
              color2 := some c2
              currentTurn := some (if c2 = "white" then Role.player2
                                   else Role.player1)
              inning := 1
              startTime := some now },
          ?_, rfl, rfl, rfl, rfl, rfl, ?_, ?_⟩
  · simp [setColors, h, DB.setTable]
  · by_cases hcw : c2 = "white" <;> simp [hcw]
  · intro hne
    simp [hne]

theorem setColors_starts_game_witness :
    dbWait.tables 1 = some tWaitBoth ∧
    tWaitBoth.status = Status.waiting ∧
    ∃ u, (setColors 1 red whiteBall 50 dbWait).2.tables 1 = some u ∧
      u.status = Status.occupied ∧ u.color1 = some red ∧
      u.color2 = some whiteBall ∧
      u.inning = 1 ∧ u.startTime = some 50 ∧
      (u.currentTurn = some Role.player2 ↔ whiteBall = "white") ∧
      (whiteBall ≠ "white" → u.currentTurn = some Role.player1) :=
  ⟨rfl, rfl, setColors_starts_game dbWait 1 tWaitBoth red whiteBall 50 rfl rfl⟩

/-- C6: a successful endGame appends exactly one game record carrying
the table number, both players, both final scores, the derived winner
and the table's preserved startTime, and then resets the row to the
available all-null/zero state — with no precondition on either score. -/
theorem endGame_records_and_resets (db : DB) (n : Nat) (t : Table)
    (h : db.tables n = some t) :
    (endGame n db).1 = Except.ok () ∧
    (endGame n db).2.games =
      db.games ++ [{ tableNum := n, player1 := t.player1,
                     player2 := t.player2,
                     score1 := t.score1, score2 := t.score2,
                     winner := if t.score1 ≥ t.target1 then t.player1
                               else t.player2,
                     startTime := t.startTime }] ∧
    (endGame n db).2.games.length = db.games.length + 1 ∧
    (endGame n db).2.tables n = some emptyTable ∧
    emptyTable.status = Status.available ∧ nullZero emptyTable := by
  refine ⟨?_, ?_, ?_, ?_, rfl, by decide⟩ <;> simp [endGame, h, DB.setTable]

theorem endGame_records_and_resets_witness :
    dbGame.tables 1 = some tGame ∧
    tGame.score1 < tGame.target1 ∧ tGame.score2 < tGame.target2 ∧
    ((endGame 1 dbGame).1 = Except.ok () ∧
     (endGame 1 dbGame).2.games =
       dbGame.games ++ [{ tableNum := 1, player1 := tGame.player1,
                          player2 := tGame.player2,
                          score1 := tGame.score1, score2 := tGame.score2,
                          winner := if tGame.score1 ≥ tGame.target1
                                    then tGame.player1 else tGame.player2,
                          startTime := tGame.startTime }] ∧
     (endGame 1 dbGame).2.games.length = dbGame.games.length + 1 ∧
     (endGame 1 dbGame).2.tables 1 = some emptyTable ∧
     emptyTable.status = Status.available ∧ nullZero emptyTable) :=
  ⟨rfl, by decide, by decide, endGame_records_and_resets dbGame 1 tGame rfl⟩

/-- C7: with well-formed inputs, createRoom fails with notFound when no
row exists, fails with invalidState whenever the row's status is not
available — leaving the store untouched on every failure — and on an
available row sets status=waiting, player1 and target1 while leaving
player2 and target2 exactly as they were (unset). -/
theorem createRoom_spec (db : DB) (n : Nat) (nick : String) (tgt : Int)
    (hn : n ≠ 0) (hnick : nick ≠ "") :
    (db.tables n = none →
      createRoom n nick tgt db = (Except.error Err.notFound, db)) ∧
    (∀ t, db.tables n = some t → t.status ≠ Status.available →
      createRoom n nick tgt db = (Except.error Err.invalidState, db)) ∧
    (∀ t, db.tables n = some t → t.status = Status.available →
      (createRoom n nick tgt db).1 = Except.ok () ∧
      ∃ u, (createRoom n nick tgt db).2.tables n = some u ∧
        u.status = Status.waiting ∧ u.player1 = some nick ∧
        u.target1 = tgt ∧ u.player2 = t.player2 ∧ u.target2 = t.target2) := by
  have hcond : ¬(n = 0 ∨ nick = "") := by
    intro hc
    cases hc with
    | inl h0 => exact hn h0
    | inr hs => exact hnick hs
  refine ⟨?_, ?_, ?_⟩
  · intro h
    simp [createRoom, hcond, h]
  · intro t h hs
    simp [createRoom, hcond, h, hs]
  · intro t h hs
    refine ⟨?_, { t with
                    status := Status.waiting
                    player1 := some nick
                    target1 := tgt }, ?_, rfl, rfl, rfl, rfl, rfl⟩
    · simp [createRoom, hcond, h, hs]
    · simp [createRoom, hcond, h, hs, DB.setTable]

theorem createRoom_spec_witness :
    (1 : Nat) ≠ 0 ∧ kim ≠ "" ∧
    ((dbA.tables 1 = some emptyTable ∧
      emptyTable.status = Status.available) ∧
     (dbGame.tables 1 = some tGame ∧ tGame.status ≠ Status.available ∧
      createRoom 1 kim 25 dbGame = (Except.error Err.invalidState, dbGame)) ∧
     (dbGame.tables 3 = none ∧
      createRoom 3 kim 25 dbGame = (Except.error Err.notFound, dbGame)) ∧
     ((createRoom 1 kim 25 dbA).1 = Except.ok () ∧
      ∃ u, (createRoom 1 kim 25 dbA).2.tables 1 = some u ∧
        u.status = Status.waiting ∧ u.player1 = some kim ∧
        u.target1 = 25 ∧ u.player2 = emptyTable.player2 ∧
        u.target2 = emptyTable.target2)) :=
  ⟨by decide, by decide,
   ⟨rfl, rfl⟩,
   ⟨rfl, by decide,
    (createRoom_spec dbGame 1 kim 25 (by decide) (by decide)).2.1 tGame rfl
      (by decide)⟩,
   ⟨rfl, (createRoom_spec dbGame 3 kim 25 (by decide) (by decide)).1 rfl⟩,
   (createRoom_spec dbA 1 kim 25 (by decide) (by decide)).2.2 emptyTable rfl
     rfl⟩

/-- C8: cancelRoom writes the available all-null/zero row whatever the
current status, and is idempotent: a second consecutive call leaves the
store exactly as the first call left it. -/
theorem cancelRoom_resets_idempotent (db : DB) (n : Nat) (t : Table)
    (h : db.tables n = some t) :
    (cancelRoom n db).2.tables n = some emptyTable ∧
    (cancelRoom n (cancelRoom n db).2).2 = (cancelRoom n db).2 := by
  have h1 : (cancelRoom n db).2.tables n = some emptyTable := by
    simp [cancelRoom, h, DB.setTable]
  refine ⟨h1, ?_⟩
  set X := (cancelRoom n db).2 with hX
  have h2 : (cancelRoom n X).2 = X.setTable n emptyTable := by
    simp only [cancelRoom, h1]
  rw [h2]
  apply DB.ext
  · funext m
    by_cases hm : m = n
    · subst hm
      simp [DB.setTable, h1]
    · simp [DB.setTable, hm]
  · rfl

theorem cancelRoom_resets_idempotent_witness :
    dbGame.tables 1 = some tGame ∧
    ((cancelRoom 1 dbGame).2.tables 1 = some emptyTable ∧
     (cancelRoom 1 (cancelRoom 1 dbGame).2).2 = (cancelRoom 1 dbGame).2) :=
  ⟨rfl, cancelRoom_resets_idempotent dbGame 1 tGame rfl⟩

lemma inv_setTable (db : DB) (n : Nat) (u : Table) (hInv : Inv db)
    (hu : u.status = Status.available → nullZero u) :
    Inv (db.setTable n u) := by
  intro m t hm hs
  simp only [DB.setTable] at hm
  by_cases hmn : m = n
  · rw [if_pos hmn] at hm
    obtain rfl := Option.some.inj hm
    exact hu hs
  · rw [if_neg hmn] at hm
    exact hInv m t hm hs

lemma inv_dbA : Inv dbA := by
  intro n t h _hs
  simp only [dbA] at h
  by_cases hn : n = 1
  · rw [if_pos hn] at h
    obtain rfl := Option.some.inj h
    decide
  · rw [if_neg hn] at h
    exact Option.noConfusion h

/-- A single operation other than approveJoin/updateScore preserves the
available-implies-null invariant. -/
lemma inv_applyOp (op : Op) (db : DB)
    (hop : op.isApproveOrUpdate = false) (hInv : Inv db) :
    Inv (applyOp op db) := by
  cases op with
  | createRoom n nick tgt =>
    by_cases h0 : n = 0 ∨ nick = ""
    · simp only [applyOp, createRoom, if_pos h0]
      exact hInv
    · simp only [applyOp, createRoom, if_neg h0]
      rcases hdb : db.tables n with _ | t
      · simp only [hdb]
        exact hInv
      · simp only [hdb]
        split
        · exact hInv
        · apply inv_setTable db n _ hInv
          intro havail
          exact Status.noConfusion havail
  | joinRoom n nick =>
    rcases hdb : db.tables n with _ | t
    · simp only [applyOp, joinRoom, hdb]
      exact hInv
    · simp only [applyOp, joinRoom, hdb]
      split
      · rename_i hst
        apply inv_setTable db n _ hInv
        intro havail
        simp [hst] at havail
      · exact hInv
  | approveJoin n tgt =>
    simp [Op.isApproveOrUpdate] at hop
  | setColors n c1 c2 now =>
    rcases hdb : db.tables n with _ | t
    · simp only [applyOp, setColors, hdb]
      exact hInv
    · simp only [applyOp, setColors, hdb]
      apply inv_setTable db n _ hInv
      intro havail
      exact Status.noConfusion havail
  | updateScore n s =>
    simp [Op.isApproveOrUpdate] at hop
  | nextTurn n =>
    rcases hdb : db.tables n with _ | t
    · simp only [applyOp, nextTurn, hdb]
      exact hInv
    · simp only [applyOp, nextTurn, hdb]
      split
      · exact hInv
      · split
        · exact hInv
        · rename_i hw1 _hw2
          apply inv_setTable db n _ hInv
          intro havail
          have hz := hInv n t hdb havail
          obtain ⟨_, _, hs1, _, ht1, _⟩ := hz
          exact absurd (show t.score1 ≥ t.target1 by omega) hw1
  | endGame n =>
    rcases hdb : db.tables n with _ | t
    · simp only [applyOp, endGame, hdb]
      exact hInv
    · simp only [applyOp, endGame, hdb]
      apply inv_setTable _ n _ hInv
      intro _
      decide
  | cancelRoom n =>
    rcases hdb : db.tables n with _ | t
    · simp only [applyOp, cancelRoom, hdb]
      exact hInv
    · simp only [applyOp, cancelRoom, hdb]
      apply inv_setTable db n _ hInv
      intro _
      decide

/-- C4 counterexample: the claimed invariant is not preserved by every
operation — from a store satisfying it, one approveJoin against an
available table writes a nonzero target2 while the status stays
available. -/
theorem availableNull_broken_by_approveJoin :
    Inv dbA ∧ ¬ Inv (applyOp (Op.approveJoin 1 20) dbA) :=
  ⟨inv_dbA, fun hInv =>
    absurd (hInv 1 { emptyTable with target2 := 20 } rfl rfl) (by decide)⟩

/-- C4 (amended): the available-implies-all-null/zero predicate is an
invariant preserved by every sequence drawn from createRoom, joinRoom,
setColors, nextTurn, endGame and cancelRoom; approveJoin and updateScore
are excluded because they check no status before writing. -/
theorem availableNull_invariant :
    ∀ (ops : List Op) (db : DB),
      (∀ op ∈ ops, op.isApproveOrUpdate = false) →
      Inv db → Inv (applyOps ops db) := by
  intro ops
  induction ops with
  | nil =>
    intro db _ hInv
    exact hInv
  | cons op rest ih =>
    intro db hops hInv
    have hstep := inv_applyOp op db (hops op (List.mem_cons_self op rest)) hInv
    have hrec := ih (applyOp op db)
      (fun o ho => hops o (List.mem_cons_of_mem op ho)) hstep
    simpa [applyOps] using hrec

theorem availableNull_invariant_witness :
    (∀ op ∈ opsW, op.isApproveOrUpdate = false) ∧ Inv dbA ∧
    Inv (applyOps opsW dbA) :=
  ⟨by decide, inv_dbA, availableNull_invariant opsW dbA (by decide) inv_dbA⟩

end Billiard
